import Mathlib

/-!
Shallow embedding of the polyglot-test Python layer
(`data_processor.py`, `ml_service.py`) of the
Cognitive-Triangulation-Pipeline repository, together with theorems
settling the frozen claims about it.

Conventions of the embedding:
* Python numbers (int/float) are modelled as exact rationals `ℚ`;
  the only irrational operation in scope, `variance ** 0.5`, is
  modelled with `Real.sqrt`.
* Python dicts are modelled as insertion-ordered association lists
  (`List (key × value)`); dict assignment overwrites in place
  (`setAssoc`), dict membership/lookup finds the first matching key.
* Fallible Python code (raised exceptions) is modelled with
  `Except String`, the string standing for the exception message.
* `np.random.normal` initialisation and the transcendental kernels
  `exp` / `log` of the classifier are taken as parameters (`w0`,
  `pexp`, `plog`): the claims about the classifier concern its state
  discipline, which holds for every choice of these parameters.
-/

namespace Poly

/-- A Python value as it appears in job payloads: a number
(int/float, collapsed to `ℚ`), a string, a list, or a dict
(insertion-ordered association list).  Other Python types do not
occur in the code paths under study. -/
inductive PyVal where
  | num (q : ℚ)
  | str (s : String)
  | list (l : List PyVal)
  | dict (d : List (String × PyVal))

mutual

def decEqPyVal : (a b : PyVal) → Decidable (a = b)
  | .num a, .num b =>
      match decEq a b with
      | .isTrue h => .isTrue (by rw [h])
      | .isFalse h => .isFalse (by simp [h])
  | .str a, .str b =>
      match decEq a b with
      | .isTrue h => .isTrue (by rw [h])
      | .isFalse h => .isFalse (by simp [h])
  | .list a, .list b =>
      match decEqPyValList a b with
      | .isTrue h => .isTrue (by rw [h])
      | .isFalse h => .isFalse (by simp [h])
  | .dict a, .dict b =>
      match decEqPyValDict a b with
      | .isTrue h => .isTrue (by rw [h])
      | .isFalse h => .isFalse (by simp [h])
  | .num _, .str _ => .isFalse (by simp)
  | .num _, .list _ => .isFalse (by simp)
  | .num _, .dict _ => .isFalse (by simp)
  | .str _, .num _ => .isFalse (by simp)
  | .str _, .list _ => .isFalse (by simp)
  | .str _, .dict _ => .isFalse (by simp)
  | .list _, .num _ => .isFalse (by simp)
  | .list _, .str _ => .isFalse (by simp)
  | .list _, .dict _ => .isFalse (by simp)
  | .dict _, .num _ => .isFalse (by simp)
  | .dict _, .str _ => .isFalse (by simp)
  | .dict _, .list _ => .isFalse (by simp)

def decEqPyValList : (a b : List PyVal) → Decidable (a = b)
  | [], [] => .isTrue rfl
  | [], _ :: _ => .isFalse (by simp)
  | _ :: _, [] => .isFalse (by simp)
  | x :: xs, y :: ys =>
      match decEqPyVal x y, decEqPyValList xs ys with
      | .isTrue h1, .isTrue h2 => .isTrue (by rw [h1, h2])
      | .isFalse h1, _ => .isFalse (by simp [h1])
      | _, .isFalse h2 => .isFalse (by simp [h2])

def decEqPyValDict : (a b : List (String × PyVal)) → Decidable (a = b)
  | [], [] => .isTrue rfl
  | [], _ :: _ => .isFalse (by simp)
  | _ :: _, [] => .isFalse (by simp)
  | (k1, v1) :: xs, (k2, v2) :: ys =>
      match decEq k1 k2, decEqPyVal v1 v2, decEqPyValDict xs ys with
      | .isTrue h0, .isTrue h1, .isTrue h2 => .isTrue (by rw [h0, h1, h2])
      | .isFalse h0, _, _ => .isFalse (by simp [h0])
      | _, .isFalse h1, _ => .isFalse (by simp [h1])
      | _, _, .isFalse h2 => .isFalse (by simp [h2])

end

instance : DecidableEq PyVal := decEqPyVal

def decEqExcept {ε α : Type} [DecidableEq ε] [DecidableEq α] :
    (a b : Except ε α) → Decidable (a = b)
  | .ok a, .ok b =>
      match decEq a b with
      | .isTrue h => .isTrue (by rw [h])
      | .isFalse h => .isFalse (by simp [h])
  | .error e, .error e' =>
      match decEq e e' with
      | .isTrue h => .isTrue (by rw [h])
      | .isFalse h => .isFalse (by simp [h])
  | .ok _, .error _ => .isFalse (by simp)
  | .error _, .ok _ => .isFalse (by simp)

instance {ε α : Type} [DecidableEq ε] [DecidableEq α] :
    DecidableEq (Except ε α) := decEqExcept

/-- Python truthiness for the values we model: `0`, `""`, `[]`, `{}`
are falsy, everything else is truthy. -/
def truthy : PyVal → Bool
  | .num q => q != 0
  | .str s => s != ""
  | .list l => !l.isEmpty
  | .dict d => !d.isEmpty

/-- `[x for x in l if isinstance(x, (int, float))]`. -/
def numerics (l : List PyVal) : List ℚ :=
  l.filterMap fun v => match v with
    | .num q => some q
    | _ => none

/-- `d.get(k, default)`: first value stored under `k`, else the default. -/
def dictGet (d : List (String × PyVal)) (k : String) (default : PyVal) : PyVal :=
  match d with
  | [] => default
  | (k', v) :: rest => if k' = k then v else dictGet rest k default

/-- Dict assignment `d[k] = v`: overwrite the first entry for `k` in
place, or append a new entry. -/
def setAssoc {α β : Type} [DecidableEq α] (d : List (α × β)) (k : α) (v : β) :
    List (α × β) :=
  match d with
  | [] => [(k, v)]
  | (k', v') :: rest =>
      if k' = k then (k', v) :: rest else (k', v') :: setAssoc rest k v

/-- Dict lookup returning `none` when the key is absent. -/
def assocFind {α β : Type} [DecidableEq α] (d : List (α × β)) (k : α) : Option β :=
  match d with
  | [] => none
  | (k', v) :: rest => if k' = k then some v else assocFind rest k

/-- The idiom `if key not in m: m[key] = []` followed by
`m[key].append(v)`: append `v` to the list stored under `k`, creating
a one-element list when the key is new. -/
def addAssoc {α β : Type} [DecidableEq α] (d : List (α × List β)) (k : α) (v : β) :
    List (α × List β) :=
  match d with
  | [] => [(k, [v])]
  | (k', vs) :: rest =>
      if k' = k then (k', vs ++ [v]) :: rest else (k', vs) :: addAssoc rest k v

/-- Python `min` over a non-empty list (`0` on `[]`, unreachable). -/
def listMin : List ℚ → ℚ
  | [] => 0
  | x :: xs => xs.foldl min x

/-- Python `max` over a non-empty list (`0` on `[]`, unreachable). -/
def listMax : List ℚ → ℚ
  | [] => 0
  | x :: xs => xs.foldl max x

/-- Rendering of a value inside an f-string.  Only used to build
error messages whose exact text no claim depends on. -/
def pyStr : PyVal → String
  | .num q => toString q
  | .str s => s
  | .list _ => "[...]"
  | .dict _ => "{...}"

/-- `sum(l)` over Python values: raises `TypeError` when a
non-numeric value is encountered. -/
def pySum : List PyVal → Except String ℚ
  | [] => .ok 0
  | .num q :: rest => do pure (q + (← pySum rest))
  | _ :: _ => .error "TypeError: unsupported operand type(s) for +"

/-! ## `DataProcessor._analyze_data` -/

/-- The `analysis` dict built by `_analyze_data` (the derived
`std_deviation` entry is `analysisStd` below). -/
structure Analysis where
  count : ℕ
  sum : ℚ
  average : ℚ
  min : ℚ
  max : ℚ
  range : ℚ
  variance : ℚ
  below_average : ℕ
  above_average : ℕ
  at_average : ℕ
deriving DecidableEq

/-- `variance ** 0.5`: the standard deviation entry of the analysis. -/
noncomputable def analysisStd (a : Analysis) : ℝ :=
  Real.sqrt (a.variance : ℝ)

/-- Result of one job handler: either the `{'error': ...}` dict or
one of the handler-specific success dict shapes. -/
inductive HandlerResult where
  | errorPayload (msg : String)
  | analysis (a : Analysis)
  | normalized (original normalizedData : List ℚ) (minValue maxValue range : ℚ)
  | flattened (d : List (String × PyVal))
  | aggregated (groups : List (PyVal × List (String × ℚ × ℚ × ℕ)))
  | crossService (service endpoint : String) (statusCode : ℕ) (response : PyVal)
  | mlSim (modelType : String) (prediction : PyVal) (confidence : ℚ)
      (featuresUsed : ℕ)
deriving DecidableEq

/-- Statistics of a non-empty list of rationals, as computed by
`_analyze_data` once the numeric data is known non-empty. -/
def analyzeList (nd : List ℚ) : Analysis :=
  let n : ℚ := nd.length
  let s : ℚ := nd.sum
  let mean : ℚ := s / n
  let mn : ℚ := listMin nd
  let mx : ℚ := listMax nd
  let variance : ℚ := ((nd.map fun x => (x - mean) ^ 2).sum) / n
  { count := nd.length
    sum := s
    average := mean
    min := mn
    max := mx
    range := mx - mn
    variance := variance
    below_average := nd.countP fun x => decide (x < mean)
    above_average := nd.countP fun x => decide (x > mean)
    at_average := nd.countP fun x => decide (x = mean) }

/-- `_analyze_data`: reads `input_data['data_points']` (default `[]`),
returns the `'No data points provided'` error on a falsy value, then
filters to numerics, returns `'No numeric data found'` when none
remain, and otherwise the statistics dict.  A truthy non-list value
raises `TypeError` when iterated. -/
def analyzeData (input_data : List (String × PyVal)) : Except String HandlerResult :=
  let dp := dictGet input_data "data_points" (.list [])
  if ¬ truthy dp then .ok (.errorPayload "No data points provided")
  else
    match dp with
    | .list l =>
        let nd := numerics l
        if nd = [] then .ok (.errorPayload "No numeric data found")
        else .ok (.analysis (analyzeList nd))
    | .str _ =>
        -- iterating a string yields its characters, none numeric
        .ok (.errorPayload "No numeric data found")
    | _ => .error "TypeError: argument of type is not iterable"

/-! ## `DataProcessor._transform_data` and its sub-handlers -/

/-- Iterating a Python value with `for x in v`: lists yield their
elements, strings their characters (as one-character strings), dicts
their keys; numbers are not iterable. -/
def pyIter : PyVal → Except String (List PyVal)
  | .list l => .ok l
  | .str s => .ok (s.toList.map fun c => .str (String.singleton c))
  | .dict d => .ok (d.map fun kv => .str kv.1)
  | .num _ => .error "TypeError: object is not iterable"

/-- The `normalized` list built by `_normalize_data`: min-max
scaling, with every output `0.5` when the range is zero. -/
def normalizedList (nd : List ℚ) : List ℚ :=
  let min_val := listMin nd
  let range_val := listMax nd - min_val
  if range_val = 0 then List.replicate nd.length (1 / 2 : ℚ)
  else nd.map fun x => (x - min_val) / range_val

/-- Core of `_normalize_data` on the already-extracted sequence. -/
def normalizeList (nd : List ℚ) : HandlerResult :=
  .normalized nd (normalizedList nd) (listMin nd) (listMax nd)
    (listMax nd - listMin nd)

/-- `_normalize_data`. -/
def normalizeData (data : PyVal) : Except String HandlerResult := do
  let elems ← pyIter data
  let nd := numerics elems
  if nd = [] then pure (.errorPayload "No numeric data to normalize")
  else pure (normalizeList nd)

/-- `DataTransformer.flatten_dict` (from `utils.py`): collapse nested
dicts to single-level keys joined by `_`. -/
def flatten_dict (d : List (String × PyVal)) (parent_key : String) :
    List (String × PyVal) :=
  match d with
  | [] => []
  | (k, v) :: rest =>
      let new_key := if parent_key = "" then k else parent_key ++ "_" ++ k
      (match v with
       | .dict sub => flatten_dict sub new_key
       | x => [(new_key, x)]) ++ flatten_dict rest parent_key
termination_by sizeOf d
decreasing_by
  all_goals simp_wf
  all_goals omega

/-- Python `dict(items)`: later entries overwrite earlier ones. -/
def dictOfPairs (l : List (String × PyVal)) : List (String × PyVal) :=
  l.foldl (fun d kv => setAssoc d kv.1 kv.2) []

/-- `_flatten_data`. -/
def flattenData (data : PyVal) : HandlerResult :=
  match data with
  | .dict d => .flattened (dictOfPairs (flatten_dict d ""))
  | .list l =>
      .flattened <|
        (l.enum.map fun (i, item) =>
            match item with
            | .dict d => d.map fun kv => ("item_" ++ toString i ++ "_" ++ kv.1, kv.2)
            | x => [("item_" ++ toString i, x)]).flatten.foldl
          (fun d kv => setAssoc d kv.1 kv.2) []
  | x => .flattened [("value", x)]

/-- Whether a value may serve as a Python dict key: numbers and
strings are hashable, lists and dicts are not (`hash(group_key)` at
`groups[group_key]` raises `TypeError` for them). -/
def hashableVal : PyVal → Bool
  | .num _ => true
  | .str _ => true
  | .list _ => false
  | .dict _ => false

/-- Whether one input item survives the grouping loop without a
hashing fault: only dict items look up a category key at all. -/
def itemCategoryHashable : PyVal → Bool
  | .dict fields => hashableVal (dictGet fields "category" (.str "default"))
  | _ => true

/-- `_aggregate_data`, grouping phase on hashable keys: walk the
input, keep the dict items, and append each to the group named by its
`category` field (default `"default"`). -/
def groupsOf (data : List PyVal) : List (PyVal × List (List (String × PyVal))) :=
  data.foldl
    (fun gs it =>
      match it with
      | .dict fields => addAssoc gs (dictGet fields "category" (.str "default")) fields
      | _ => gs)
    []

/-- `_aggregate_data`, grouping phase as executed: using an
unhashable category value (a list or dict) as a group key raises
`TypeError` at the `group_key not in groups` membership test, so the
walk aborts at the first such item. -/
def groupsOfE (data : List PyVal)
    (gs : List (PyVal × List (List (String × PyVal)))) :
    Except String (List (PyVal × List (List (String × PyVal)))) :=
  match data with
  | [] => .ok gs
  | it :: rest =>
      match it with
      | .dict fields =>
          match dictGet fields "category" (.str "default") with
          | .list _ => .error "TypeError: unhashable type: 'list'"
          | .dict _ => .error "TypeError: unhashable type: 'dict'"
          | k => groupsOfE rest (addAssoc gs k fields)
      | _ => groupsOfE rest gs

/-- `_aggregate_data`, collection phase for one group: per field name,
the list of numeric values of that field over the group's items, in
dict-insertion order. -/
def collectNumeric (items : List (List (String × PyVal))) : List (String × List ℚ) :=
  items.foldl
    (fun nf fields =>
      fields.foldl
        (fun nf kv =>
          match kv.2 with
          | .num q => addAssoc nf kv.1 q
          | _ => nf)
        nf)
    []

/-- `_aggregate_data`, statistics phase for one group: for each
collected field, `(sum, average, count)` — the `{field}_sum`,
`{field}_avg`, `{field}_count` entries. -/
def groupStats (items : List (List (String × PyVal))) : List (String × ℚ × ℚ × ℕ) :=
  (collectNumeric items).filterMap fun (field, values) =>
    if values.isEmpty then none
    else some (field, values.sum, values.sum / values.length, values.length)

/-- `_aggregate_data`: empty or non-list data yields the described
error payload; an unhashable category value raises `TypeError`
(propagated to the caller); otherwise the grouped statistics. -/
def aggregateData (data : PyVal) : Except String HandlerResult :=
  match data with
  | .list items =>
      if items.isEmpty then .ok (.errorPayload "Invalid data for aggregation")
      else do
        let gs ← groupsOfE items []
        pure (.aggregated (gs.map fun (g, its) => (g, groupStats its)))
  | _ => .ok (.errorPayload "Invalid data for aggregation")

/-- `_transform_data`: dispatch on `input_data['type']`
(default `'normalize'`). -/
def transformData (input_data : List (String × PyVal)) : Except String HandlerResult :=
  let transformation_type := dictGet input_data "type" (.str "normalize")
  let data := dictGet input_data "data" (.list [])
  if transformation_type = .str "normalize" then normalizeData data
  else if transformation_type = .str "flatten" then .ok (flattenData data)
  else if transformation_type = .str "aggregate" then aggregateData data
  else .ok (.errorPayload ("Unknown transformation type: " ++ pyStr transformation_type))

/-! ## `DataProcessor._make_cross_service_call` -/

/-- Reply of the HTTP transport: status code and decoded body. -/
structure HttpReply where
  statusCode : ℕ
  body : PyVal
deriving DecidableEq

/-- The external HTTP capability: `(method, url, payload)` to either a
reply or a transport fault (`requests.RequestException`). -/
def Transport : Type := String → String → PyVal → Except String HttpReply

/-- Base URLs of the two configured services (`js_api_url`,
`java_api_url`). -/
structure ProcConfig where
  js_api_url : String := "http://localhost:3000"
  java_api_url : String := "http://localhost:8080"

/-- `_make_cross_service_call`. -/
def makeCrossServiceCall (cfg : ProcConfig) (net : Transport)
    (input_data : List (String × PyVal)) : HandlerResult :=
  let service := dictGet input_data "service" (.str "javascript")
  let endpoint := dictGet input_data "endpoint" (.str "/api/status")
  let method := dictGet input_data "method" (.str "GET")
  let payload := dictGet input_data "payload" (.dict [])
  match service, endpoint with
  | .str sv, .str ep =>
      let url :=
        if sv = "javascript" then some (cfg.js_api_url ++ ep)
        else if sv = "java" then some (cfg.java_api_url ++ ep)
        else none
      match url, method with
      | none, _ => .errorPayload ("Unknown service: " ++ sv)
      | some u, .str m =>
          if m.toUpper = "GET" ∨ m.toUpper = "POST" then
            match net m.toUpper u payload with
            | .ok reply => .crossService sv ep reply.statusCode reply.body
            | .error e => .errorPayload ("Service call failed: " ++ e)
          else .errorPayload ("Unsupported method: " ++ m)
      | some _, mv => .errorPayload ("Unsupported method: " ++ pyStr mv)
  | sv, _ => .errorPayload ("Unknown service: " ++ pyStr sv)

/-! ## `DataProcessor._make_ml_prediction` (simulated, local) -/

/-- Python `min(a, b)` / `max(a, b)` composition used for the
confidence clamp `min(0.95, max(0.6, x))`. -/
def clamp6095 (x : ℚ) : ℚ := min (95 / 100 : ℚ) (max (60 / 100 : ℚ) x)

/-- `_make_ml_prediction`: a local simulation.  It never consults the
ML model registry — for `linear_regression` it returns
`0.7·sum(features) + 0.3`, for `classification` the sign of
`sum(features)`; anything else is the described error.  (The
`time.sleep(0.5)` delay has no observable effect on the result and is
not modelled.) -/
def makeMlPrediction (input_data : List (String × PyVal)) :
    Except String HandlerResult := do
  let features ← pyIter (dictGet input_data "features" (.list []))
  let model_type := dictGet input_data "model_type" (.str "linear_regression")
  if model_type = .str "linear_regression" then
    if features.length > 0 then do
      let s ← pySum features
      let prediction := s * (7 / 10) + 3 / 10
      let confidence := clamp6095 (1 - |prediction - s| / 10)
      pure (.mlSim "linear_regression" (.num prediction) confidence features.length)
    else
      pure (.mlSim "linear_regression" (.num (1 / 2)) (1 / 2) features.length)
  else if model_type = .str "classification" then do
    let score ← if truthy (.list features) then pySum features else pure 0
    let prediction : PyVal := if score > 0 then .str "positive" else .str "negative"
    let confidence := clamp6095 (|score| / 10)
    pure (.mlSim "classification" prediction confidence features.length)
  else
    pure (.errorPayload ("Unknown model type: " ++ pyStr model_type))

/-! ## `DataProcessor._process_job`, `_worker`, and the result store -/

/-- A job as drawn from the processing queue. -/
structure Job where
  id : ℕ
  job_type : String
  input_data : List (String × PyVal)

/-- The job types `_process_job` dispatches on. -/
def knownJobTypes : List String :=
  ["data_analysis", "data_transformation", "cross_service_call", "ml_prediction"]

/-- Handler dispatch inside `_process_job`: the `result` value
produced before it is stored, or a raised exception. -/
def dispatchJob (cfg : ProcConfig) (net : Transport) (job : Job) :
    Except String HandlerResult :=
  if job.job_type = "data_analysis" then analyzeData job.input_data
  else if job.job_type = "data_transformation" then transformData job.input_data
  else if job.job_type = "cross_service_call" then
    .ok (makeCrossServiceCall cfg net job.input_data)
  else if job.job_type = "ml_prediction" then makeMlPrediction job.input_data
  else .ok (.errorPayload ("Unknown job type: " ++ job.job_type))

/-- One `results_cache` entry: the success shape
`{'result': ..., 'processing_time': ..., 'completed_at': ...}` or the
failure shape `{'error': ..., 'failed_at': ...}` written by the
catch-all (timestamps and durations are not modelled). -/
inductive CacheEntry where
  | done (result : HandlerResult)
  | failed (msg : String)
deriving DecidableEq

/-- `_process_job`: run the dispatched handler and build the cache
entry, converting a raised exception into the failure entry. -/
def processJob (cfg : ProcConfig) (net : Transport) (job : Job) : CacheEntry :=
  match dispatchJob cfg net job with
  | .ok result => .done result
  | .error e => .failed e

/-- The worker loop draining a queue of jobs: each job is processed
and its entry stored in `results_cache` under its id. -/
def runJobs (cfg : ProcConfig) (net : Transport) (cache : List (ℕ × CacheEntry))
    (jobs : List Job) : List (ℕ × CacheEntry) :=
  jobs.foldl (fun c job => setAssoc c job.id (processJob cfg net job)) cache

/-! ## `ml_service.py`: models, training, prediction, persistence -/

/-- The `self.parameters` dict of a model: empty at creation, then the
kind-specific parameter dict written by `train`. -/
inductive MLParams where
  | empty
  | linreg (weights : List ℚ) (bias : ℚ) (n_samples : ℕ)
  | classif (weights : List ℚ) (bias : ℚ) (threshold : ℚ) (learning_rate : ℚ)
      (epochs : ℕ) (final_loss : ℚ)
deriving DecidableEq

/-- The `MLModel` base-class fields. -/
structure MLModelState where
  name : String
  model_type : String
  version : String
  parameters : MLParams
  is_trained : Bool
  accuracy : Option ℚ
  created_at : ℕ
deriving DecidableEq

/-- The dict pickled by `MLModel.save`: exactly the seven base fields,
`created_at` included. -/
structure ModelBlob where
  name : String
  model_type : String
  version : String
  parameters : MLParams
  is_trained : Bool
  accuracy : Option ℚ
  created_at : ℕ
deriving DecidableEq

/-- `MLModel.save`: the blob written to the file. -/
def saveBlob (m : MLModelState) : ModelBlob :=
  ⟨m.name, m.model_type, m.version, m.parameters, m.is_trained, m.accuracy,
    m.created_at⟩

/-- `MLModel.load`, field-assignment phase: overwrite `name`,
`model_type`, `version`, `parameters`, `is_trained` and `accuracy`
from the blob.  The source assigns no other field — in particular
`self.created_at` keeps its in-memory value. -/
def applyLoad (m : MLModelState) (b : ModelBlob) : MLModelState :=
  { m with
    name := b.name
    model_type := b.model_type
    version := b.version
    parameters := b.parameters
    is_trained := b.is_trained
    accuracy := b.accuracy }

/-- The file system as seen by save/load: path to pickled blob. -/
def FileStore : Type := String → Option ModelBlob

/-- `MLModel.save(file_path)`: write the blob, report success. -/
def modelSave (fs : FileStore) (file_path : String) (m : MLModelState) :
    FileStore × Bool :=
  (fun p => if p = file_path then some (saveBlob m) else fs p, true)

/-- `MLModel.load(file_path)`: on a readable blob overwrite the state
and report `true`; on failure leave the state untouched and report
`false`. -/
def modelLoad (fs : FileStore) (file_path : String) (m : MLModelState) :
    MLModelState × Bool :=
  match fs file_path with
  | some b => (applyLoad m b, true)
  | none => (m, false)

/-- `LinearRegressionModel`: base state plus `weights`/`bias`. -/
structure LRModel extends MLModelState where
  weights : Option (List ℚ)
  bias : ℚ
deriving DecidableEq

/-- `LinearRegressionModel.__init__`. -/
def LRModel.init (name version : String) (created : ℕ) : LRModel :=
  { name := name, model_type := "linear_regression", version := version,
    parameters := .empty, is_trained := false, accuracy := none,
    created_at := created, weights := none, bias := 0 }

/-- The success dict returned by `LinearRegressionModel.train`. -/
structure LRTrainResult where
  accuracy : ℚ
  weights : List ℚ
  bias : ℚ
  n_samples : ℕ
deriving DecidableEq

/-- `LinearRegressionModel.train`.  A zero OLS denominator
(`n·Σx² = (Σx)²`, i.e. all x-values equal) raises `ZeroDivisionError`
in the source before any field is assigned; it is modelled as the
error branch.  (`row[0]` on an empty row raises `IndexError` in the
source; `headI` returns `0` — the claims only use one-element rows.) -/
def lrTrain (m : LRModel) (X : List (List ℚ)) (y : List ℚ) :
    LRModel × Except String LRTrainResult :=
  if X.isEmpty ∨ y.isEmpty ∨ X.length ≠ y.length then
    (m, .error "Invalid training data")
  else if X.headI.length = 1 then
    let x_vals := X.map List.headI
    let n : ℚ := x_vals.length
    let sum_x := x_vals.sum
    let sum_y := y.sum
    let sum_xy := ((x_vals.zip y).map fun p => p.1 * p.2).sum
    let sum_x2 := (x_vals.map fun x => x * x).sum
    let denom := n * sum_x2 - sum_x * sum_x
    if denom = 0 then (m, .error "ZeroDivisionError: float division by zero")
    else
      let slope := (n * sum_xy - sum_x * sum_y) / denom
      let intercept := (sum_y - slope * sum_x) / n
      let y_pred := x_vals.map fun x => slope * x + intercept
      let y_mean := sum_y / n
      let ss_res := ((y.zip y_pred).map fun p => (p.1 - p.2) ^ 2).sum
      let ss_tot := (y.map fun v => (v - y_mean) ^ 2).sum
      let acc := if ss_tot ≠ 0 then 1 - ss_res / ss_tot else 0
      ({ m with
          weights := some [slope], bias := intercept, is_trained := true,
          accuracy := some acc,
          parameters := .linreg [slope] intercept x_vals.length },
        .ok ⟨acc, [slope], intercept, x_vals.length⟩)
  else (m, .error "Multi-feature regression not implemented")

/-- `LinearRegressionModel.predict`: raises on an untrained model,
otherwise maps each row, substituting `0.0` for any row that does not
have exactly one feature. -/
def lrPredict (m : LRModel) (X : List (List ℚ)) : Except String (List ℚ) :=
  if ¬ m.is_trained ∨ m.weights = none then
    .error "Model must be trained before making predictions"
  else
    let w := m.weights.getD []
    .ok (X.map fun row =>
      if row.length = 1 then w.headI * row.headI + m.bias else 0)

/-- `ClassificationModel`: base state plus `weights`/`bias`/`threshold`. -/
structure CModel extends MLModelState where
  weights : Option (List ℚ)
  bias : ℚ
  threshold : ℚ
deriving DecidableEq

/-- `ClassificationModel.__init__`. -/
def CModel.init (name version : String) (created : ℕ) : CModel :=
  { name := name, model_type := "binary_classification", version := version,
    parameters := .empty, is_trained := false, accuracy := none,
    created_at := created, weights := none, bias := 0, threshold := 1 / 2 }

/-- `np.clip(x, lo, hi)` on one entry. -/
def clipQ (lo hi x : ℚ) : ℚ := min hi (max lo x)

/-- `ClassificationModel.sigmoid` with its `[-500, 500]` logit clip,
parameterised by the transcendental kernel `pexp` standing for
`np.exp`. -/
def sigmoidP (pexp : ℚ → ℚ) (z : ℚ) : ℚ :=
  1 / (1 + pexp (-(clipQ (-500) 500 z)))

/-- Dot product of two equally long vectors. -/
def dotQ (a b : List ℚ) : ℚ := ((a.zip b).map fun p => p.1 * p.2).sum

/-- The probability clip `np.clip(predictions, 1e-15, 1 - 1e-15)`
bound. -/
def probEps : ℚ := 1 / 10 ^ 15

/-- One epoch of the classifier's gradient-descent loop: predictions
through the clipped sigmoid, clipped away from 0/1, then the
cross-entropy gradient step at learning rate `lr`. -/
def gdStep (pexp : ℚ → ℚ) (Xb : List (List ℚ)) (yv : List ℚ) (lr : ℚ)
    (w : List ℚ) : List ℚ :=
  let n : ℚ := Xb.length
  let preds := Xb.map fun row =>
    clipQ probEps (1 - probEps) (sigmoidP pexp (dotQ row w))
  let diffs := (preds.zip yv).map fun p => p.1 - p.2
  w.mapIdx fun j wj =>
    wj - lr * (((Xb.zip diffs).map fun rd => rd.1.getD j 0 * rd.2).sum / n)

/-- The binary cross-entropy loss of the loop body, parameterised by
the kernel `plog` standing for `np.log`. -/
def bceLoss (pexp plog : ℚ → ℚ) (Xb : List (List ℚ)) (yv : List ℚ)
    (w : List ℚ) : ℚ :=
  let preds := Xb.map fun row =>
    clipQ probEps (1 - probEps) (sigmoidP pexp (dotQ row w))
  let terms := (yv.zip preds).map fun p =>
    p.1 * plog p.2 + (1 - p.1) * plog (1 - p.2)
  Neg.neg (terms.sum / yv.length)

/-- The success dict returned by `ClassificationModel.train`. -/
structure CTrainResult where
  accuracy : ℚ
  weights : List ℚ
  bias : ℚ
  threshold : ℚ
  learning_rate : ℚ
  epochs : ℕ
  final_loss : ℚ
deriving DecidableEq

/-- Whether `np.array(X)` accepts `X` as a rectangular 2-d array:
every row must have the length of the first row.  A ragged input
raises inside numpy instead. -/
def rectangular (X : List (List ℚ)) : Bool :=
  X.all fun r => r.length = X.headI.length

/-- The bias-augmented design matrix `X_with_bias` of the classifier. -/
def clXb (X : List (List ℚ)) : List (List ℚ) := X.map fun r => 1 :: r

/-- The classifier's weight vector after the full 1000-epoch loop at
learning rate 0.01, from initial weights `w0`. -/
def clWFinal (pexp : ℚ → ℚ) (w0 : List ℚ) (X : List (List ℚ))
    (y : List ℚ) : List ℚ :=
  (gdStep pexp (clXb X) y (1 / 100))^[1000] w0

/-- The loss stored as `final_loss`: computed by the last loop body
from the weights before their final update (the 999-fold iterate). -/
def clFinalLoss (pexp plog : ℚ → ℚ) (w0 : List ℚ) (X : List (List ℚ))
    (y : List ℚ) : ℚ :=
  bceLoss pexp plog (clXb X) y
    ((gdStep pexp (clXb X) y (1 / 100))^[1000 - 1] w0)

/-- The training accuracy: fraction of thresholded final predictions
matching the labels. -/
def clAccuracy (pexp : ℚ → ℚ) (w0 : List ℚ) (th : ℚ) (X : List (List ℚ))
    (y : List ℚ) : ℚ :=
  let final_predictions :=
    (clXb X).map fun row => sigmoidP pexp (dotQ row (clWFinal pexp w0 X y))
  let binary := final_predictions.map fun p => if p > th then (1 : ℚ) else 0
  (((binary.zip y).map fun p => if p.1 = p.2 then (1 : ℚ) else 0).sum) / y.length

/-- `ClassificationModel.train`, parameterised by the transcendental
kernels and by the random initial weights `w0`
(`np.random.normal(0, 0.01, n_features)`).  A ragged `X` raises
inside numpy (`np.array` / the object-dtype `dot`) before any field
is assigned, modelled as the `ValueError` branch.  On the success
path the model fields are assigned only after the full 1000-epoch
loop: the stored weights are the 1000-fold iterate of `gdStep`, and
`final_loss` is the loss computed from the 999-fold iterate (the loop
body computes the loss before updating the weights). -/
def clTrain (pexp plog : ℚ → ℚ) (w0 : List ℚ) (m : CModel)
    (X : List (List ℚ)) (y : List ℚ) : CModel × Except String CTrainResult :=
  if X.isEmpty ∨ y.isEmpty ∨ X.length ≠ y.length then
    (m, .error "Invalid training data")
  else if ¬ rectangular X then
    (m, .error "ValueError: setting an array element with a sequence")
  else
    ({ m with
        bias := (clWFinal pexp w0 X y).headI,
        weights := some (clWFinal pexp w0 X y).tail,
        is_trained := true,
        accuracy := some (clAccuracy pexp w0 m.threshold X y),
        parameters := .classif (clWFinal pexp w0 X y).tail
          (clWFinal pexp w0 X y).headI m.threshold (1 / 100) 1000
          (clFinalLoss pexp plog w0 X y) },
      .ok ⟨clAccuracy pexp w0 m.threshold X y, (clWFinal pexp w0 X y).tail,
        (clWFinal pexp w0 X y).headI, m.threshold, 1 / 100, 1000,
        clFinalLoss pexp plog w0 X y⟩)

/-- `ClassificationModel.predict`: raises on an untrained model; a
ragged input or a row width different from the trained weight count
raises inside numpy (`np.array` / `dot`), modelled as the error
branch; otherwise returns the sigmoid probabilities. -/
def clPredict (pexp : ℚ → ℚ) (m : CModel) (X : List (List ℚ)) :
    Except String (List ℚ) :=
  if ¬ m.is_trained ∨ m.weights = none then
    .error "Model must be trained before making predictions"
  else
    let w := m.weights.getD []
    if X.all fun row => row.length = w.length then
      .ok (X.map fun row => sigmoidP pexp (dotQ (1 :: row) (m.bias :: w)))
    else .error "ValueError: shapes not aligned"

/-- A registry entry: one of the two model classes. -/
inductive RModel where
  | linreg (s : LRModel)
  | classif (s : CModel)
deriving DecidableEq

/-- The `is_trained` flag of a registry entry. -/
def RModel.is_trained : RModel → Bool
  | .linreg s => s.is_trained
  | .classif s => s.is_trained

/-- The `model_type` of a registry entry. -/
def RModel.model_type : RModel → String
  | .linreg s => s.model_type
  | .classif s => s.model_type

/-- Virtual dispatch of `model.predict(features)`. -/
def rPredict (pexp : ℚ → ℚ) : RModel → List (List ℚ) → Except String (List ℚ)
  | .linreg s => lrPredict s
  | .classif s => clPredict pexp s

/-- The success dict returned by `MLService.predict`. -/
structure PredictResult where
  model_name : String
  model_type : String
  predictions : List ℚ
  num_samples : ℕ
  binary_predictions : Option (List ℕ)
deriving DecidableEq

/-- `MLService.predict`: unknown name, untrained model and empty
features are rejected in that order; a raised prediction fault is
caught and surfaced as `Prediction failed: ...`; classification
results additionally carry `predict_binary`'s thresholded output. -/
def svcPredict (pexp : ℚ → ℚ) (models : List (String × RModel))
    (model_name : String) (features : List (List ℚ)) :
    Except String PredictResult :=
  match assocFind models model_name with
  | none => .error ("Model " ++ model_name ++ " not found")
  | some model =>
      if ¬ model.is_trained then
        .error ("Model " ++ model_name ++ " is not trained")
      else if features.isEmpty then
        .error "Input data must include 'features'"
      else
        match rPredict pexp model features with
        | .error e => .error ("Prediction failed: " ++ e)
        | .ok predictions =>
            match model with
            | .linreg _ =>
                .ok ⟨model_name, model.model_type, predictions, features.length,
                  none⟩
            | .classif s =>
                match clPredict pexp s features with
                | .error e => .error ("Prediction failed: " ++ e)
                | .ok probs =>
                    .ok ⟨model_name, model.model_type, predictions,
                      features.length,
                      some (probs.map fun p => if p > s.threshold then 1 else 0)⟩

/-! ## Helper lemmas about `listMin`, `listMax` and sums -/

theorem foldl_min_le_init (xs : List ℚ) (x : ℚ) : xs.foldl min x ≤ x := by
  induction xs generalizing x with
  | nil => simp
  | cons a as ih => exact le_trans (ih (min x a)) (min_le_left x a)

theorem foldl_min_le_mem (xs : List ℚ) :
    ∀ (x y : ℚ), y ∈ xs → xs.foldl min x ≤ y := by
  induction xs with
  | nil => intro x y h; simp at h
  | cons a as ih =>
    intro x y h
    rcases List.mem_cons.mp h with h1 | h2
    · rw [h1]
      calc (a :: as).foldl min x = as.foldl min (min x a) := rfl
        _ ≤ min x a := foldl_min_le_init as (min x a)
        _ ≤ a := min_le_right x a
    · exact ih (min x a) y h2

theorem foldl_min_mem (xs : List ℚ) :
    ∀ (x : ℚ), xs.foldl min x ∈ x :: xs := by
  induction xs with
  | nil => intro x; simp
  | cons a as ih =>
    intro x
    have h := ih (min x a)
    have hstep : (a :: as).foldl min x = as.foldl min (min x a) := rfl
    rw [hstep]
    rcases List.mem_cons.mp h with h1 | h2
    · rcases min_choice x a with hc | hc
      · rw [h1, hc]; exact List.mem_cons_self _ _
      · rw [h1, hc]
        exact List.mem_cons.mpr (Or.inr (List.mem_cons_self _ _))
    · exact List.mem_cons.mpr (Or.inr (List.mem_cons.mpr (Or.inr h2)))

theorem listMin_le_of_mem {l : List ℚ} {y : ℚ} (h : y ∈ l) : listMin l ≤ y := by
  match l with
  | [] => cases h
  | x :: xs =>
    rcases List.mem_cons.mp h with h1 | h2
    · subst h1; exact foldl_min_le_init xs y
    · exact foldl_min_le_mem xs x y h2

theorem listMin_mem {l : List ℚ} (h : l ≠ []) : listMin l ∈ l := by
  match l with
  | [] => exact absurd rfl h
  | x :: xs => exact foldl_min_mem xs x

theorem foldl_max_init_le (xs : List ℚ) (x : ℚ) : x ≤ xs.foldl max x := by
  induction xs generalizing x with
  | nil => simp
  | cons a as ih => exact le_trans (le_max_left x a) (ih (max x a))

theorem foldl_max_mem_le (xs : List ℚ) :
    ∀ (x y : ℚ), y ∈ xs → y ≤ xs.foldl max x := by
  induction xs with
  | nil => intro x y h; simp at h
  | cons a as ih =>
    intro x y h
    rcases List.mem_cons.mp h with h1 | h2
    · rw [h1]
      calc a ≤ max x a := le_max_right x a
        _ ≤ as.foldl max (max x a) := foldl_max_init_le as (max x a)
        _ = (a :: as).foldl max x := rfl
    · exact ih (max x a) y h2

theorem le_listMax_of_mem {l : List ℚ} {y : ℚ} (h : y ∈ l) : y ≤ listMax l := by
  match l with
  | [] => cases h
  | x :: xs =>
    rcases List.mem_cons.mp h with h1 | h2
    · subst h1; exact foldl_max_init_le xs y
    · exact foldl_max_mem_le xs x y h2

theorem foldl_max_mem (xs : List ℚ) :
    ∀ (x : ℚ), xs.foldl max x ∈ x :: xs := by
  induction xs with
  | nil => intro x; simp
  | cons a as ih =>
    intro x
    have h := ih (max x a)
    have hstep : (a :: as).foldl max x = as.foldl max (max x a) := rfl
    rw [hstep]
    rcases List.mem_cons.mp h with h1 | h2
    · rcases max_choice x a with hc | hc
      · rw [h1, hc]; exact List.mem_cons_self _ _
      · rw [h1, hc]
        exact List.mem_cons.mpr (Or.inr (List.mem_cons_self _ _))
    · exact List.mem_cons.mpr (Or.inr (List.mem_cons.mpr (Or.inr h2)))

theorem listMax_mem {l : List ℚ} (h : l ≠ []) : listMax l ∈ l := by
  match l with
  | [] => exact absurd rfl h
  | x :: xs => exact foldl_max_mem xs x

theorem listMin_le_listMax {l : List ℚ} (h : l ≠ []) : listMin l ≤ listMax l :=
  le_trans (listMin_le_of_mem (listMin_mem h)) (le_listMax_of_mem (listMin_mem h))

theorem length_pos_q {l : List ℚ} (h : l ≠ []) : 0 < (l.length : ℚ) := by
  have : 0 < l.length := List.length_pos.mpr h
  exact_mod_cast this

/-- The average of a non-empty list lies between its min and its max. -/
theorem average_bounds {l : List ℚ} (h : l ≠ []) :
    listMin l ≤ l.sum / l.length ∧ l.sum / l.length ≤ listMax l := by
  have hn := length_pos_q h
  constructor
  · rw [le_div_iff₀ hn]
    have hb := List.card_nsmul_le_sum l (listMin l) fun x hx => listMin_le_of_mem hx
    rw [nsmul_eq_mul] at hb
    linarith
  · rw [div_le_iff₀ hn]
    have hb := List.sum_le_card_nsmul l (listMax l) fun x hx => le_listMax_of_mem hx
    rw [nsmul_eq_mul] at hb
    linarith

/-- Strictly-below, strictly-above and exactly-equal counts against
any pivot partition a list of rationals. -/
theorem countP_trichotomy (m : ℚ) (l : List ℚ) :
    (l.countP fun x => decide (x < m)) + (l.countP fun x => decide (x > m)) +
      (l.countP fun x => decide (x = m)) = l.length := by
  induction l with
  | nil => simp
  | cons a as ih =>
    rcases lt_trichotomy a m with h | h | h
    · have h2 : ¬ a > m := asymm h
      have h3 : ¬ a = m := ne_of_lt h
      simp only [List.countP_cons, List.length_cons, decide_eq_true_eq,
        if_pos h, if_neg h2, if_neg h3]
      omega
    · have h2 : ¬ a < m := by rw [h]; exact lt_irrefl m
      have h3 : ¬ a > m := by rw [h]; exact lt_irrefl m
      simp only [List.countP_cons, List.length_cons, decide_eq_true_eq,
        if_neg h2, if_neg h3, if_pos h]
      omega
    · have h2 : ¬ a < m := asymm h
      have h3 : ¬ a = m := ne_of_gt h
      simp only [List.countP_cons, List.length_cons, decide_eq_true_eq,
        if_pos h, if_neg h2, if_neg h3]
      omega

theorem sq_dev_sum_nonneg (nd : List ℚ) (m : ℚ) :
    0 ≤ ((nd.map fun x => (x - m) ^ 2).sum) := by
  apply List.sum_nonneg
  intro x hx
  obtain ⟨y, _, rfl⟩ := List.mem_map.mp hx
  positivity

/-- Reduction of the analysis handler on a non-degenerate input. -/
theorem analyzeData_ok (inp : List (String × PyVal)) (l : List PyVal)
    (hdp : dictGet inp "data_points" (.list []) = .list l)
    (hne : numerics l ≠ []) :
    analyzeData inp = .ok (.analysis (analyzeList (numerics l))) := by
  have hl : l ≠ [] := by
    intro h
    rw [h] at hne
    exact hne rfl
  unfold analyzeData
  rw [hdp]
  simp [truthy, hl, hne]

/-! ## Claim theorems -/

/-- C1 (amended): for a job input whose `data_points` list has at
least one numeric value, the analysis handler succeeds with
count = number of numeric entries, sum, average = sum/count, min and
max realised by list members and bounding all of them,
range = max − min, variance = population variance (divisor `count`),
std_deviation = sqrt(variance); and min ≤ average ≤ max.  If the list
is non-empty but has no numeric value the handler reports
`'No numeric data found'`; if the list is empty it reports
`'No data points provided'` instead. -/
theorem analysis_handler_correct :
    (∀ (inp : List (String × PyVal)) (l : List PyVal),
      dictGet inp "data_points" (.list []) = .list l →
      numerics l ≠ [] →
      analyzeData inp = .ok (.analysis (analyzeList (numerics l))) ∧
      (analyzeList (numerics l)).count = (numerics l).length ∧
      (analyzeList (numerics l)).sum = (numerics l).sum ∧
      (analyzeList (numerics l)).average =
        (analyzeList (numerics l)).sum / ((analyzeList (numerics l)).count : ℚ) ∧
      (analyzeList (numerics l)).min ∈ numerics l ∧
      (∀ x ∈ numerics l, (analyzeList (numerics l)).min ≤ x) ∧
      (analyzeList (numerics l)).max ∈ numerics l ∧
      (∀ x ∈ numerics l, x ≤ (analyzeList (numerics l)).max) ∧
      (analyzeList (numerics l)).range =
        (analyzeList (numerics l)).max - (analyzeList (numerics l)).min ∧
      (analyzeList (numerics l)).variance =
        ((numerics l).map fun x =>
          (x - (analyzeList (numerics l)).average) ^ 2).sum
          / ((analyzeList (numerics l)).count : ℚ) ∧
      0 ≤ analysisStd (analyzeList (numerics l)) ∧
      analysisStd (analyzeList (numerics l)) ^ 2 =
        ((analyzeList (numerics l)).variance : ℝ) ∧
      (analyzeList (numerics l)).min ≤ (analyzeList (numerics l)).average ∧
      (analyzeList (numerics l)).average ≤ (analyzeList (numerics l)).max) ∧
    (∀ (inp : List (String × PyVal)) (l : List PyVal),
      dictGet inp "data_points" (.list []) = .list l → l ≠ [] →
      numerics l = [] →
      analyzeData inp = .ok (.errorPayload "No numeric data found")) ∧
    (∀ (inp : List (String × PyVal)),
      dictGet inp "data_points" (.list []) = .list [] →
      analyzeData inp = .ok (.errorPayload "No data points provided")) := by
  refine ⟨?_, ?_, ?_⟩
  · intro inp l hdp hne
    have hvar : 0 ≤ (analyzeList (numerics l)).variance := by
      have := sq_dev_sum_nonneg (numerics l)
        ((numerics l).sum / ((numerics l).length : ℚ))
      have hlen : (0 : ℚ) ≤ ((numerics l).length : ℚ) := by positivity
      simp only [analyzeList]
      exact div_nonneg (this) hlen
    refine ⟨analyzeData_ok inp l hdp hne, rfl, rfl, rfl,
      ?_, ?_, ?_, ?_, rfl, rfl, ?_, ?_, ?_, ?_⟩
    · exact listMin_mem hne
    · intro x hx; exact listMin_le_of_mem hx
    · exact listMax_mem hne
    · intro x hx; exact le_listMax_of_mem hx
    · exact Real.sqrt_nonneg _
    · exact Real.sq_sqrt (by exact_mod_cast hvar)
    · exact (average_bounds hne).1
    · exact (average_bounds hne).2
  · intro inp l hdp hl hz
    unfold analyzeData
    rw [hdp]
    simp [truthy, hl, hz]
  · intro inp hdp
    unfold analyzeData
    rw [hdp]
    simp [truthy]

theorem analysis_handler_correct_witness :
    analyzeData [("data_points", PyVal.list [.num 1, .num 2])] =
      .ok (.analysis (analyzeList (numerics [PyVal.num 1, PyVal.num 2]))) :=
  (analysis_handler_correct.1 [("data_points", PyVal.list [.num 1, .num 2])]
    [PyVal.num 1, PyVal.num 2] rfl (by decide)).1

/-- C1, claim as frozen, refuted at the empty list: an input whose
`data_points` contains no numeric value is claimed to report the
'no numeric data' error, but on the empty list the code reports
`'No data points provided'`, a different error. -/
theorem analysis_empty_counterexample :
    analyzeData [("data_points", PyVal.list [])] =
      .ok (.errorPayload "No data points provided") ∧
    ¬ (analyzeData [("data_points", PyVal.list [])] =
      .ok (.errorPayload "No numeric data found")) := by
  constructor
  · rfl
  · intro h
    rw [show analyzeData [("data_points", PyVal.list [])] =
        .ok (.errorPayload "No data points provided") from rfl] at h
    injection h with h1
    injection h1 with h2
    exact absurd h2 (by decide)

/-- C10: for inputs with at least one numeric value, the three
category counts of the analysis partition the numeric data:
below_average + above_average + at_average = count. -/
theorem analysis_categories_partition (inp : List (String × PyVal))
    (l : List PyVal)
    (hdp : dictGet inp "data_points" (.list []) = .list l)
    (hne : numerics l ≠ []) :
    analyzeData inp = .ok (.analysis (analyzeList (numerics l))) ∧
    (analyzeList (numerics l)).below_average +
      (analyzeList (numerics l)).above_average +
      (analyzeList (numerics l)).at_average =
      (analyzeList (numerics l)).count := by
  refine ⟨analyzeData_ok inp l hdp hne, ?_⟩
  simp only [analyzeList]
  exact countP_trichotomy _ _

theorem analysis_categories_partition_witness :
    (analyzeList (numerics [PyVal.num 1, PyVal.num 2, PyVal.num 2])).below_average +
      (analyzeList (numerics [PyVal.num 1, PyVal.num 2, PyVal.num 2])).above_average +
      (analyzeList (numerics [PyVal.num 1, PyVal.num 2, PyVal.num 2])).at_average =
      (analyzeList (numerics [PyVal.num 1, PyVal.num 2, PyVal.num 2])).count :=
  (analysis_categories_partition
    [("data_points", PyVal.list [.num 1, .num 2, .num 2])]
    [PyVal.num 1, PyVal.num 2, PyVal.num 2] rfl (by decide)).2

/-- C2: for an input list with at least one numeric entry, the
normalize transform succeeds; when max = min every normalized output
is exactly 0.5, and otherwise all outputs lie in [0, 1], positions
holding the original max map to 1 and positions holding the original
min map to 0. -/
theorem normalize_correct (data : List PyVal) (hne : numerics data ≠ []) :
    normalizeData (.list data) = .ok (normalizeList (numerics data)) ∧
    (listMax (numerics data) = listMin (numerics data) →
      ∀ v ∈ normalizedList (numerics data), v = 1 / 2) ∧
    (listMax (numerics data) ≠ listMin (numerics data) →
      (∀ v ∈ normalizedList (numerics data), 0 ≤ v ∧ v ≤ 1) ∧
      (normalizedList (numerics data)).length = (numerics data).length ∧
      (∀ i, i < (numerics data).length →
        ((numerics data).getD i 0 = listMax (numerics data) →
          (normalizedList (numerics data)).getD i 0 = 1) ∧
        ((numerics data).getD i 0 = listMin (numerics data) →
          (normalizedList (numerics data)).getD i 0 = 0))) := by
  set nd := numerics data with hnd
  refine ⟨?_, ?_, ?_⟩
  · unfold normalizeData pyIter
    show ((Except.ok data).bind fun elems =>
        if numerics elems = [] then
          pure (HandlerResult.errorPayload "No numeric data to normalize")
        else pure (normalizeList (numerics elems))) =
      Except.ok (normalizeList nd)
    rw [Except.bind]
    simp only [← hnd]
    rw [if_neg hne]
    rfl
  · intro hz v hv
    have hr : listMax nd - listMin nd = 0 := by rw [hz]; ring
    unfold normalizedList at hv
    rw [if_pos hr] at hv
    exact List.eq_of_mem_replicate hv
  · intro hzne
    have hle : listMin nd ≤ listMax nd := listMin_le_listMax hne
    have hlt : listMin nd < listMax nd :=
      lt_of_le_of_ne hle (fun h => hzne h.symm)
    have hr : (0 : ℚ) < listMax nd - listMin nd := by linarith
    have hrne : listMax nd - listMin nd ≠ 0 := ne_of_gt hr
    have hform : normalizedList nd =
        nd.map fun x => (x - listMin nd) / (listMax nd - listMin nd) := by
      unfold normalizedList
      rw [if_neg hrne]
    refine ⟨?_, ?_, ?_⟩
    · intro v hv
      rw [hform] at hv
      obtain ⟨x, hx, rfl⟩ := List.mem_map.mp hv
      constructor
      · exact div_nonneg (by linarith [listMin_le_of_mem hx]) (le_of_lt hr)
      · rw [div_le_one hr]
        linarith [le_listMax_of_mem hx]
    · rw [hform, List.length_map]
    · intro i hi
      have hi' : i < (normalizedList nd).length := by
        rw [hform, List.length_map]; exact hi
      have hget : (normalizedList nd).getD i 0 =
          (nd.getD i 0 - listMin nd) / (listMax nd - listMin nd) := by
        rw [hform, List.getD_eq_getElem _ _ (by rw [List.length_map]; exact hi),
          List.getElem_map, List.getD_eq_getElem _ _ hi]
      constructor
      · intro hmax
        rw [hget, hmax, div_self hrne]
      · intro hmin
        rw [hget, hmin, sub_self, zero_div]

theorem normalize_correct_witness :
    normalizeData (.list [PyVal.num 1, PyVal.num 3]) =
      .ok (normalizeList (numerics [PyVal.num 1, PyVal.num 3])) :=
  (normalize_correct [PyVal.num 1, PyVal.num 3] (by decide)).1

/-! ## Counting infrastructure for the aggregate transform -/

/-- `isinstance(v, (int, float))`. -/
def isNum : PyVal → Bool
  | .num _ => true
  | _ => false

/-- Occurrences of field `f` with a numeric value in one record. -/
def numCountIn (f : String) (fields : List (String × PyVal)) : ℕ :=
  fields.countP fun kv => decide (kv.1 = f) && isNum kv.2

/-- Occurrences of field `f` (any value) in one record. -/
def presentCountIn (f : String) (fields : List (String × PyVal)) : ℕ :=
  fields.countP fun kv => decide (kv.1 = f)

/-- Numeric occurrences of field `f` across the whole input (non-dict
items carry no fields). -/
def numericFieldCount (f : String) (data : List PyVal) : ℕ :=
  (data.map fun it =>
    match it with
    | .dict fields => numCountIn f fields
    | _ => 0).sum

/-- Non-missing occurrences of field `f` across the whole input. -/
def presentFieldCount (f : String) (data : List PyVal) : ℕ :=
  (data.map fun it =>
    match it with
    | .dict fields => presentCountIn f fields
    | _ => 0).sum

/-- The `{f}_count` value reported in one group's statistics (0 when
the group has no entry for `f`; keys are unique by construction). -/
def statsCountFor (f : String) (stats : List (String × ℚ × ℚ × ℕ)) : ℕ :=
  (stats.map fun st => if st.1 = f then st.2.2.2 else 0).sum

/-- Sum over all groups of the reported `{f}_count` values. -/
def reportedCountTotal (f : String)
    (groups : List (PyVal × List (String × ℚ × ℚ × ℕ))) : ℕ :=
  (groups.map fun g => statsCountFor f g.2).sum

/-- Total length of the value lists stored under key `f`. -/
def keyLenTotal (f : String) (nf : List (String × List ℚ)) : ℕ :=
  (nf.map fun p => if p.1 = f then p.2.length else 0).sum

/-- Total numeric `f`-occurrences over the items of all groups. -/
def groupNumTotal (f : String)
    (gs : List (PyVal × List (List (String × PyVal)))) : ℕ :=
  (gs.map fun g => (g.2.map (numCountIn f)).sum).sum

theorem statsCountFor_filterMap (f : String) :
    ∀ (l : List (String × List ℚ)),
      statsCountFor f (l.filterMap fun p =>
        if p.2.isEmpty then none
        else some (p.1, p.2.sum, p.2.sum / p.2.length, p.2.length)) =
      keyLenTotal f l := by
  intro l
  induction l with
  | nil => rfl
  | cons p rest ih =>
    obtain ⟨k, vs⟩ := p
    cases vs with
    | nil =>
      rw [List.filterMap_cons]
      simp only [List.isEmpty_nil, if_true]
      rw [ih]
      simp only [keyLenTotal, List.map_cons, List.sum_cons, List.length_nil]
      rw [← keyLenTotal]
      simp
    | cons a as =>
      rw [List.filterMap_cons]
      simp only [List.isEmpty_cons, if_false, Bool.false_eq_true]
      simp only [statsCountFor, List.map_cons, List.sum_cons]
      rw [← statsCountFor, ih]
      simp only [keyLenTotal, List.map_cons, List.sum_cons]

theorem keyLenTotal_addAssoc (f : String) :
    ∀ (nf : List (String × List ℚ)) (k : String) (v : ℚ),
      keyLenTotal f (addAssoc nf k v) =
        keyLenTotal f nf + (if k = f then 1 else 0) := by
  intro nf
  induction nf with
  | nil =>
    intro k v
    simp [addAssoc, keyLenTotal]
  | cons p rest ih =>
    intro k v
    obtain ⟨k', vs⟩ := p
    by_cases hk : k' = k
    · simp only [addAssoc, if_pos hk, keyLenTotal, List.map_cons, List.sum_cons]
      rw [← keyLenTotal]
      subst hk
      by_cases hf : k' = f
      · simp [hf, List.length_append]
        omega
      · simp [hf]
    · simp only [addAssoc, if_neg hk, keyLenTotal, List.map_cons, List.sum_cons]
      rw [← keyLenTotal, ← keyLenTotal, ih]
      omega

theorem keyLenTotal_fields_foldl (f : String) :
    ∀ (fields : List (String × PyVal)) (nf : List (String × List ℚ)),
      keyLenTotal f (fields.foldl
        (fun nf kv =>
          match kv.2 with
          | .num q => addAssoc nf kv.1 q
          | _ => nf) nf) =
      keyLenTotal f nf + numCountIn f fields := by
  intro fields
  induction fields with
  | nil => intro nf; simp [numCountIn]
  | cons kv rest ih =>
    intro nf
    obtain ⟨k, v⟩ := kv
    simp only [List.foldl_cons]
    rw [ih]
    cases v with
    | num q =>
      rw [keyLenTotal_addAssoc]
      simp only [numCountIn, List.countP_cons, isNum, Bool.and_true]
      by_cases hf : k = f
      · simp [hf, numCountIn]
        omega
      · simp [hf, numCountIn]
    | str s =>
      simp only [numCountIn, List.countP_cons, isNum, Bool.and_false]
      simp [numCountIn]
    | list l' =>
      simp only [numCountIn, List.countP_cons, isNum, Bool.and_false]
      simp [numCountIn]
    | dict d' =>
      simp only [numCountIn, List.countP_cons, isNum, Bool.and_false]
      simp [numCountIn]

theorem keyLenTotal_collectNumeric (f : String) :
    ∀ (items : List (List (String × PyVal))) (nf0 : List (String × List ℚ)),
      keyLenTotal f (items.foldl
        (fun nf fields =>
          fields.foldl
            (fun nf kv =>
              match kv.2 with
              | .num q => addAssoc nf kv.1 q
              | _ => nf) nf) nf0) =
      keyLenTotal f nf0 + (items.map (numCountIn f)).sum := by
  intro items
  induction items with
  | nil => intro nf0; simp
  | cons fields rest ih =>
    intro nf0
    simp only [List.foldl_cons, List.map_cons, List.sum_cons]
    rw [ih, keyLenTotal_fields_foldl]
    omega

theorem statsCountFor_groupStats (f : String)
    (items : List (List (String × PyVal))) :
    statsCountFor f (groupStats items) = (items.map (numCountIn f)).sum := by
  unfold groupStats
  rw [statsCountFor_filterMap]
  unfold collectNumeric
  rw [keyLenTotal_collectNumeric]
  simp [keyLenTotal]

theorem groupNumTotal_addAssoc (f : String) :
    ∀ (gs : List (PyVal × List (List (String × PyVal)))) (k : PyVal)
      (fields : List (String × PyVal)),
      groupNumTotal f (addAssoc gs k fields) =
        groupNumTotal f gs + numCountIn f fields := by
  intro gs
  induction gs with
  | nil =>
    intro k fields
    simp [addAssoc, groupNumTotal]
  | cons p rest ih =>
    intro k fields
    obtain ⟨k', its⟩ := p
    by_cases hk : k' = k
    · simp only [addAssoc, if_pos hk, groupNumTotal, List.map_cons,
        List.sum_cons, List.map_append, List.sum_append]
      rw [← groupNumTotal]
      simp
      omega
    · simp only [addAssoc, if_neg hk, groupNumTotal, List.map_cons,
        List.sum_cons]
      rw [← groupNumTotal, ← groupNumTotal, ih]
      omega

theorem groupNumTotal_groupsOf (f : String) :
    ∀ (data : List PyVal) (gs0 : List (PyVal × List (List (String × PyVal)))),
      groupNumTotal f (data.foldl
        (fun gs it =>
          match it with
          | .dict fields =>
              addAssoc gs (dictGet fields "category" (.str "default")) fields
          | _ => gs) gs0) =
      groupNumTotal f gs0 + numericFieldCount f data := by
  intro data
  induction data with
  | nil => intro gs0; simp [numericFieldCount]
  | cons it rest ih =>
    intro gs0
    simp only [List.foldl_cons]
    rw [ih]
    cases it with
    | dict fields =>
      rw [groupNumTotal_addAssoc]
      simp only [numericFieldCount, List.map_cons, List.sum_cons]
      rw [← numericFieldCount]
      omega
    | num q =>
      simp only [numericFieldCount, List.map_cons, List.sum_cons]
      rw [← numericFieldCount]
      omega
    | str s =>
      simp only [numericFieldCount, List.map_cons, List.sum_cons]
      rw [← numericFieldCount]
      omega
    | list l' =>
      simp only [numericFieldCount, List.map_cons, List.sum_cons]
      rw [← numericFieldCount]
      omega

theorem groupsOfE_ok :
    ∀ (data : List PyVal) (gs : List (PyVal × List (List (String × PyVal)))),
      data.all itemCategoryHashable = true →
      groupsOfE data gs = .ok (data.foldl
        (fun gs it =>
          match it with
          | .dict fields =>
              addAssoc gs (dictGet fields "category" (.str "default")) fields
          | _ => gs) gs) := by
  intro data
  induction data with
  | nil => intro gs _; rfl
  | cons it rest ih =>
    intro gs h
    rw [List.all_cons, Bool.and_eq_true] at h
    obtain ⟨h1, h2⟩ := h
    cases it with
    | num q =>
      simp only [groupsOfE, List.foldl_cons]
      exact ih gs h2
    | str t =>
      simp only [groupsOfE, List.foldl_cons]
      exact ih gs h2
    | list l =>
      simp only [groupsOfE, List.foldl_cons]
      exact ih gs h2
    | dict fields =>
      simp only [itemCategoryHashable] at h1
      cases hk : dictGet fields "category" (.str "default") with
      | num q =>
        simp only [groupsOfE, hk, List.foldl_cons]
        exact ih _ h2
      | str t =>
        simp only [groupsOfE, hk, List.foldl_cons]
        exact ih _ h2
      | list l =>
        rw [hk] at h1
        simp [hashableVal] at h1
      | dict d =>
        rw [hk] at h1
        simp [hashableVal] at h1

theorem groupsOfE_error :
    ∀ (data : List PyVal) (gs : List (PyVal × List (List (String × PyVal)))),
      data.all itemCategoryHashable = false →
      ∃ e, groupsOfE data gs = .error e := by
  intro data
  induction data with
  | nil => intro gs h; simp at h
  | cons it rest ih =>
    intro gs h
    rw [List.all_cons, Bool.and_eq_false_iff] at h
    cases it with
    | num q =>
      simp only [groupsOfE]
      refine ih gs ?_
      rcases h with h | h
      · simp [itemCategoryHashable] at h
      · exact h
    | str t =>
      simp only [groupsOfE]
      refine ih gs ?_
      rcases h with h | h
      · simp [itemCategoryHashable] at h
      · exact h
    | list l =>
      simp only [groupsOfE]
      refine ih gs ?_
      rcases h with h | h
      · simp [itemCategoryHashable] at h
      · exact h
    | dict fields =>
      cases hk : dictGet fields "category" (.str "default") with
      | num q =>
        simp only [groupsOfE, hk]
        refine ih _ ?_
        rcases h with h | h
        · rw [itemCategoryHashable, hk] at h
          simp [hashableVal] at h
        · exact h
      | str t =>
        simp only [groupsOfE, hk]
        refine ih _ ?_
        rcases h with h | h
        · rw [itemCategoryHashable, hk] at h
          simp [hashableVal] at h
        · exact h
      | list l =>
        exact ⟨"TypeError: unhashable type: 'list'", by simp [groupsOfE, hk]⟩
      | dict d =>
        exact ⟨"TypeError: unhashable type: 'dict'", by simp [groupsOfE, hk]⟩

/-- C3 (amended): for every non-empty input list whose records'
category values are hashable (numbers or strings) and every field
name, aggregation succeeds and the sum over all groups of the
reported `{field}_count` values equals the count of *numeric* values
of that field across the whole input; a list- or dict-valued category
raises `TypeError` instead, and nothing is reported. -/
theorem aggregate_count_conservation (data : List PyVal) (f : String)
    (hne : data ≠ []) :
    (data.all itemCategoryHashable = true →
      aggregateData (.list data) =
        .ok (.aggregated ((groupsOf data).map fun p => (p.1, groupStats p.2))) ∧
      reportedCountTotal f ((groupsOf data).map fun p => (p.1, groupStats p.2)) =
        numericFieldCount f data) ∧
    (data.all itemCategoryHashable = false →
      ∃ e, aggregateData (.list data) = .error e) := by
  constructor
  · intro hh
    constructor
    · simp only [aggregateData]
      rw [if_neg (show ¬ data.isEmpty = true by simpa using hne),
        groupsOfE_ok data [] hh]
      rfl
    · unfold reportedCountTotal
      rw [List.map_map]
      have hcongr : ((groupsOf data).map
          ((fun g => statsCountFor f g.2) ∘ fun p => (p.1, groupStats p.2))) =
          (groupsOf data).map fun g => (g.2.map (numCountIn f)).sum := by
        apply List.map_congr_left
        intro g _
        exact statsCountFor_groupStats f g.2
      rw [hcongr]
      have : ((groupsOf data).map fun g => (g.2.map (numCountIn f)).sum).sum =
          groupNumTotal f (groupsOf data) := rfl
      rw [this]
      unfold groupsOf
      rw [groupNumTotal_groupsOf]
      simp [groupNumTotal]
  · intro hh
    obtain ⟨e, he⟩ := groupsOfE_error data [] hh
    refine ⟨e, ?_⟩
    simp only [aggregateData]
    rw [if_neg (show ¬ data.isEmpty = true by simpa using hne), he]
    rfl

theorem aggregate_count_conservation_witness :
    aggregateData (.list [PyVal.dict [("category", .str "a"), ("x", .num 3)],
        PyVal.dict [("x", .num 4)]]) =
      .ok (.aggregated
        ((groupsOf [PyVal.dict [("category", .str "a"), ("x", .num 3)],
          PyVal.dict [("x", .num 4)]]).map fun p => (p.1, groupStats p.2))) ∧
    reportedCountTotal "x"
        ((groupsOf [PyVal.dict [("category", .str "a"), ("x", .num 3)],
          PyVal.dict [("x", .num 4)]]).map fun p => (p.1, groupStats p.2)) =
      numericFieldCount "x" [PyVal.dict [("category", .str "a"), ("x", .num 3)],
        PyVal.dict [("x", .num 4)]] :=
  (aggregate_count_conservation
    [PyVal.dict [("category", .str "a"), ("x", .num 3)],
      PyVal.dict [("x", .num 4)]] "x" (by decide)).1 (by decide)

/-- C3, claim as frozen, refuted: a record whose field `f` is present
but non-numeric is counted by "non-missing values" but contributes to
no `{f}_count`; on `[{'f': 'x'}]` the reported total is 0 while the
non-missing count is 1. -/
theorem aggregate_count_counterexample :
    aggregateData (.list [PyVal.dict [("f", .str "x")]]) =
      .ok (.aggregated [(PyVal.str "default", [])]) ∧
    reportedCountTotal "f" [(PyVal.str "default", [])] = 0 ∧
    presentFieldCount "f" [PyVal.dict [("f", .str "x")]] = 1 :=
  ⟨rfl, rfl, rfl⟩

/-- C4 (amended): for every non-empty single-feature training set
whose OLS denominator `n·Σx² − (Σx)²` is non-zero, linear-regression
training returns slope, intercept and R² by the closed-form OLS
formulas (R² = 0 when SS_tot = 0); fitting X=[[1],[2],[3]],
y=[3,5,7] yields slope 2, intercept 1, R² 1; and multi-feature input
is rejected with the described error.  When the denominator is zero
(all x-values equal, e.g. a single sample) the source raises
`ZeroDivisionError` instead of computing the formulas. -/
theorem linreg_train_formulas :
    (∀ (m : LRModel) (X : List (List ℚ)) (y : List ℚ),
      X ≠ [] → y ≠ [] → X.length = y.length →
      (∀ r ∈ X, r.length = 1) →
      (((X.map List.headI).length : ℚ) *
          ((X.map List.headI).map fun x => x * x).sum -
          (X.map List.headI).sum * (X.map List.headI).sum) ≠ 0 →
      (lrTrain m X y).2 =
        (let x_vals := X.map List.headI
         let n : ℚ := x_vals.length
         let sum_x := x_vals.sum
         let sum_y := y.sum
         let sum_xy := ((x_vals.zip y).map fun p => p.1 * p.2).sum
         let sum_x2 := (x_vals.map fun x => x * x).sum
         let slope := (n * sum_xy - sum_x * sum_y) / (n * sum_x2 - sum_x * sum_x)
         let intercept := (sum_y - slope * sum_x) / n
         let y_pred := x_vals.map fun x => slope * x + intercept
         let y_mean := sum_y / n
         let ss_res := ((y.zip y_pred).map fun p => (p.1 - p.2) ^ 2).sum
         let ss_tot := (y.map fun v => (v - y_mean) ^ 2).sum
         .ok ⟨if ss_tot ≠ 0 then 1 - ss_res / ss_tot else 0,
           [slope], intercept, x_vals.length⟩)) ∧
    ((lrTrain (LRModel.init "linear_regression" "1.0" 0)
        [[1], [2], [3]] [3, 5, 7]).2 = .ok ⟨1, [2], 1, 3⟩) ∧
    (∀ (m : LRModel) (X : List (List ℚ)) (y : List ℚ),
      X ≠ [] → y ≠ [] → X.length = y.length →
      (∀ r ∈ X, 1 < r.length) →
      (lrTrain m X y).2 = .error "Multi-feature regression not implemented") := by
  refine ⟨?_, ?_, ?_⟩
  · intro m X y hX hy hlen hrows hd
    have hXe : X.isEmpty = false := by simpa using hX
    have hye : y.isEmpty = false := by simpa using hy
    have hguard : ¬ (X.isEmpty ∨ y.isEmpty ∨ X.length ≠ y.length) := by
      push_neg
      refine ⟨by simp [hXe], by simp [hye], hlen⟩
    have hhead : X.headI.length = 1 := hrows X.headI (List.head!_mem_self hX)
    unfold lrTrain
    rw [if_neg hguard, if_pos hhead, if_neg hd]
  · unfold lrTrain
    norm_num [List.headI, LRTrainResult.mk.injEq]
  · intro m X y hX hy hlen hrows
    have hXe : X.isEmpty = false := by simpa using hX
    have hye : y.isEmpty = false := by simpa using hy
    have hguard : ¬ (X.isEmpty ∨ y.isEmpty ∨ X.length ≠ y.length) := by
      push_neg
      refine ⟨by simp [hXe], by simp [hye], hlen⟩
    have hhead : ¬ X.headI.length = 1 := by
      have := hrows X.headI (List.head!_mem_self hX)
      omega
    unfold lrTrain
    rw [if_neg hguard, if_neg hhead]

theorem linreg_train_formulas_witness :
    (lrTrain (LRModel.init "linear_regression" "1.0" 0)
        [[0], [1]] [0, 2]).2 =
      .ok ⟨if ((2 : ℚ) ≠ 0) then 1 - 0 / 2 else 0, [2], 0, 2⟩ := by
  have h := linreg_train_formulas.1 (LRModel.init "linear_regression" "1.0" 0)
    [[0], [1]] [0, 2] (by decide) (by decide) rfl (by decide) (by norm_num)
  rw [h]
  norm_num

/-- C4, claim as frozen, refuted at the single-sample set X=[[1]],
y=[3] (a non-empty single-feature training set): the OLS denominator
is zero there, and instead of computing the claimed formulas the
training raises `ZeroDivisionError` (surfaced as an error result, the
model left untouched). -/
theorem linreg_train_divzero_counterexample :
    lrTrain (LRModel.init "linear_regression" "1.0" 0) [[1]] [3] =
      (LRModel.init "linear_regression" "1.0" 0,
        .error "ZeroDivisionError: float division by zero") := by
  unfold lrTrain
  norm_num [List.headI]

/-- C5: model training is atomic.  Empty or mismatched training data
returns the described error and leaves the model state entirely
untouched — for both model classes, for every failure path of linear
regression, and for the classifier's numpy shape fault on ragged
input; on success (rectangular input past the length guard) every
parameter field — weights, bias, trained flag, accuracy, parameters —
is set together, and the classifier's stored weights are exactly the
result of the full 1000-epoch loop, never an intermediate iterate. -/
theorem train_atomicity :
    (∀ (m : LRModel) (X : List (List ℚ)) (y : List ℚ),
      (X = [] ∨ y = [] ∨ X.length ≠ y.length) →
      lrTrain m X y = (m, .error "Invalid training data")) ∧
    (∀ (pexp plog : ℚ → ℚ) (w0 : List ℚ) (m : CModel) (X : List (List ℚ))
        (y : List ℚ),
      (X = [] ∨ y = [] ∨ X.length ≠ y.length) →
      clTrain pexp plog w0 m X y = (m, .error "Invalid training data")) ∧
    (∀ (m : LRModel) (X : List (List ℚ)) (y : List ℚ) (e : String),
      (lrTrain m X y).2 = .error e → (lrTrain m X y).1 = m) ∧
    (∀ (m : LRModel) (X : List (List ℚ)) (y : List ℚ) (r : LRTrainResult),
      (lrTrain m X y).2 = .ok r →
      (lrTrain m X y).1 = { m with
        weights := some r.weights, bias := r.bias, is_trained := true,
        accuracy := some r.accuracy,
        parameters := .linreg r.weights r.bias r.n_samples }) ∧
    (∀ (pexp plog : ℚ → ℚ) (w0 : List ℚ) (m : CModel) (X : List (List ℚ))
        (y : List ℚ) (e : String),
      (clTrain pexp plog w0 m X y).2 = .error e →
      (clTrain pexp plog w0 m X y).1 = m) ∧
    (∀ (pexp plog : ℚ → ℚ) (w0 : List ℚ) (m : CModel) (X : List (List ℚ))
        (y : List ℚ),
      ¬ (X.isEmpty ∨ y.isEmpty ∨ X.length ≠ y.length) →
      rectangular X = false →
      clTrain pexp plog w0 m X y =
        (m, .error "ValueError: setting an array element with a sequence")) ∧
    (∀ (pexp plog : ℚ → ℚ) (w0 : List ℚ) (m : CModel) (X : List (List ℚ))
        (y : List ℚ),
      ¬ (X.isEmpty ∨ y.isEmpty ∨ X.length ≠ y.length) →
      rectangular X = true →
      (clTrain pexp plog w0 m X y).1.is_trained = true ∧
      (clTrain pexp plog w0 m X y).1.weights =
        some (clWFinal pexp w0 X y).tail ∧
      (clTrain pexp plog w0 m X y).1.bias = (clWFinal pexp w0 X y).headI ∧
      (clTrain pexp plog w0 m X y).1.accuracy =
        some (clAccuracy pexp w0 m.threshold X y) ∧
      (clTrain pexp plog w0 m X y).1.parameters =
        .classif (clWFinal pexp w0 X y).tail (clWFinal pexp w0 X y).headI
          m.threshold (1 / 100) 1000 (clFinalLoss pexp plog w0 X y) ∧
      (clTrain pexp plog w0 m X y).1.name = m.name ∧
      (clTrain pexp plog w0 m X y).1.threshold = m.threshold ∧
      (clTrain pexp plog w0 m X y).1.created_at = m.created_at ∧
      (clTrain pexp plog w0 m X y).2 =
        .ok ⟨clAccuracy pexp w0 m.threshold X y, (clWFinal pexp w0 X y).tail,
          (clWFinal pexp w0 X y).headI, m.threshold, 1 / 100, 1000,
          clFinalLoss pexp plog w0 X y⟩) := by
  have hguard : ∀ (X : List (List ℚ)) (y : List ℚ),
      (X = [] ∨ y = [] ∨ X.length ≠ y.length) →
      (X.isEmpty ∨ y.isEmpty ∨ X.length ≠ y.length) := by
    intro X y h
    rcases h with h | h | h
    · exact Or.inl (by simp [h])
    · exact Or.inr (Or.inl (by simp [h]))
    · exact Or.inr (Or.inr h)
  refine ⟨?_, ?_, ?_, ?_, ?_, ?_, ?_⟩
  · intro m X y h
    unfold lrTrain
    rw [if_pos (hguard X y h)]
  · intro pexp plog w0 m X y h
    unfold clTrain
    rw [if_pos (hguard X y h)]
  · intro m X y e h
    by_cases h1 : X.isEmpty ∨ y.isEmpty ∨ X.length ≠ y.length
    · unfold lrTrain
      rw [if_pos h1]
    · by_cases h2 : X.headI.length = 1
      · by_cases h3 : ((X.map List.headI).length : ℚ) *
            ((X.map List.headI).map fun x => x * x).sum -
            (X.map List.headI).sum * (X.map List.headI).sum = 0
        · unfold lrTrain
          rw [if_neg h1, if_pos h2, if_pos h3]
        · unfold lrTrain at h
          rw [if_neg h1, if_pos h2, if_neg h3] at h
          simp at h
      · unfold lrTrain
        rw [if_neg h1, if_neg h2]
  · intro m X y r h
    by_cases h1 : X.isEmpty ∨ y.isEmpty ∨ X.length ≠ y.length
    · unfold lrTrain at h
      rw [if_pos h1] at h
      simp at h
    · by_cases h2 : X.headI.length = 1
      · by_cases h3 : ((X.map List.headI).length : ℚ) *
            ((X.map List.headI).map fun x => x * x).sum -
            (X.map List.headI).sum * (X.map List.headI).sum = 0
        · unfold lrTrain at h
          rw [if_neg h1, if_pos h2, if_pos h3] at h
          simp at h
        · unfold lrTrain at h ⊢
          rw [if_neg h1, if_pos h2, if_neg h3] at h ⊢
          have h4 := Except.ok.inj h
          rw [← h4]
      · unfold lrTrain at h
        rw [if_neg h1, if_neg h2] at h
        simp at h
  · intro pexp plog w0 m X y e h
    by_cases h1 : X.isEmpty ∨ y.isEmpty ∨ X.length ≠ y.length
    · unfold clTrain
      rw [if_pos h1]
    · by_cases h2 : ¬ rectangular X = true
      · unfold clTrain
        rw [if_neg h1, if_pos h2]
      · unfold clTrain at h
        rw [if_neg h1, if_neg h2] at h
        exact Except.noConfusion h
  · intro pexp plog w0 m X y h1 h2
    unfold clTrain
    rw [if_neg h1, if_pos (by simp [h2])]
  · intro pexp plog w0 m X y h1 h2
    refine ⟨?_, ?_, ?_, ?_, ?_, ?_, ?_, ?_, ?_⟩ <;>
      simp only [clTrain, if_neg h1, if_neg (not_not_intro h2)]

theorem train_atomicity_witness :
    lrTrain (LRModel.init "linear_regression" "1.0" 0) [] [] =
      (LRModel.init "linear_regression" "1.0" 0,
        .error "Invalid training data") :=
  train_atomicity.1 (LRModel.init "linear_regression" "1.0" 0) [] []
    (Or.inl rfl)

/-- C6: the registry predict path reports a described error for an
unknown model name, and for an untrained model regardless of input,
returning no predictions in either case; only a trained
linear-regression model substitutes the fallback 0.0 for rows without
exactly one feature, with the call succeeding overall, while a
trained classifier given a row of mismatched width fails the whole
call instead of substituting a fallback. -/
theorem predict_error_handling :
    (∀ (pexp : ℚ → ℚ) (models : List (String × RModel)) (name : String)
        (X : List (List ℚ)),
      assocFind models name = none →
      svcPredict pexp models name X =
        .error ("Model " ++ name ++ " not found")) ∧
    (∀ (pexp : ℚ → ℚ) (models : List (String × RModel)) (name : String)
        (X : List (List ℚ)) (m : RModel),
      assocFind models name = some m → m.is_trained = false →
      svcPredict pexp models name X =
        .error ("Model " ++ name ++ " is not trained")) ∧
    (∀ (pexp : ℚ → ℚ) (models : List (String × RModel)) (name : String)
        (X : List (List ℚ)) (s : LRModel) (w : List ℚ),
      assocFind models name = some (.linreg s) → s.is_trained = true →
      s.weights = some w → X ≠ [] →
      svcPredict pexp models name X = .ok ⟨name, s.model_type,
        X.map fun row =>
          if row.length = 1 then w.headI * row.headI + s.bias else 0,
        X.length, none⟩) ∧
    (∀ (pexp : ℚ → ℚ) (models : List (String × RModel)) (name : String)
        (X : List (List ℚ)) (s : CModel) (w : List ℚ),
      assocFind models name = some (.classif s) → s.is_trained = true →
      s.weights = some w → X ≠ [] →
      ¬ (X.all fun row => row.length = w.length) = true →
      svcPredict pexp models name X =
        .error ("Prediction failed: ValueError: shapes not aligned")) := by
  refine ⟨?_, ?_, ?_, ?_⟩
  · intro pexp models name X hfind
    simp only [svcPredict, hfind]
  · intro pexp models name X m hfind huntrained
    simp only [svcPredict, hfind]
    rw [if_pos (by simp [huntrained])]
  · intro pexp models name X s w hfind htrained hw hne
    have hpred : rPredict pexp (.linreg s) X =
        .ok (X.map fun row =>
          if row.length = 1 then w.headI * row.headI + s.bias else 0) := by
      simp only [rPredict, lrPredict]
      rw [if_neg (by simp [htrained, hw]), hw]
      simp only [Option.getD_some]
    simp only [svcPredict, hfind]
    rw [if_neg (by simp [RModel.is_trained, htrained]),
      if_neg (by simpa using hne), hpred]
    rfl
  · intro pexp models name X s w hfind htrained hw hne hragged
    have hpred : rPredict pexp (.classif s) X =
        .error "ValueError: shapes not aligned" := by
      simp only [rPredict, clPredict]
      rw [if_neg (by simp [htrained, hw]), hw]
      simp only [Option.getD_some]
      rw [if_neg (by simpa using hragged)]
    simp only [svcPredict, hfind]
    rw [if_neg (by simp [RModel.is_trained, htrained]),
      if_neg (by simpa using hne), hpred]
    rfl

theorem predict_error_handling_witness :
    svcPredict (fun q => q) [] "m" [[1]] = .error "Model m not found" :=
  predict_error_handling.1 (fun q => q) [] "m" [[1]] rfl

/-! ## Result-store lemmas for the worker loop -/

theorem assocFind_setAssoc_self {α β : Type} [DecidableEq α] :
    ∀ (d : List (α × β)) (k : α) (v : β),
      assocFind (setAssoc d k v) k = some v := by
  intro d
  induction d with
  | nil => intro k v; simp [setAssoc, assocFind]
  | cons p rest ih =>
    intro k v
    obtain ⟨k', v'⟩ := p
    by_cases hk : k' = k
    · simp [setAssoc, assocFind, hk]
    · simp only [setAssoc, if_neg hk, assocFind]
      exact ih k v

theorem assocFind_setAssoc_isSome {α β : Type} [DecidableEq α] :
    ∀ (d : List (α × β)) (k k' : α) (v : β),
      (assocFind d k).isSome = true →
      (assocFind (setAssoc d k' v) k).isSome = true := by
  intro d
  induction d with
  | nil => intro k k' v h; simp [assocFind] at h
  | cons p rest ih =>
    intro k k' v h
    obtain ⟨k0, v0⟩ := p
    simp only [assocFind] at h
    by_cases h0 : k0 = k'
    · simp only [setAssoc, if_pos h0, assocFind]
      by_cases h1 : k0 = k
      · rw [if_pos h1]
        simp
      · rw [if_neg h1]
        rw [if_neg h1] at h
        exact h
    · simp only [setAssoc, if_neg h0, assocFind]
      by_cases h1 : k0 = k
      · rw [if_pos h1]
        simp
      · rw [if_neg h1] at h ⊢
        exact ih k k' v h

theorem runJobs_preserves (cfg : ProcConfig) (net : Transport) :
    ∀ (jobs : List Job) (cache : List (ℕ × CacheEntry)) (k : ℕ),
      (assocFind cache k).isSome = true →
      (assocFind (runJobs cfg net cache jobs) k).isSome = true := by
  intro jobs
  induction jobs with
  | nil => intro cache k h; exact h
  | cons j rest ih =>
    intro cache k h
    exact ih _ k (assocFind_setAssoc_isSome cache k j.id _ h)

/-- C7: a job whose type tag matches no known handler is recorded as
a completed outcome carrying the error payload
`'Unknown job type: X'`, not a raised fault; and the worker loop
records a result-store entry for every job it drains — in particular
a bad-type job followed by a good job both resolve. -/
theorem unknown_job_type_handling :
    (∀ (cfg : ProcConfig) (net : Transport) (job : Job),
      job.job_type ∉ knownJobTypes →
      processJob cfg net job =
        .done (.errorPayload ("Unknown job type: " ++ job.job_type))) ∧
    (∀ (cfg : ProcConfig) (net : Transport) (cache : List (ℕ × CacheEntry))
        (jobs : List Job) (j : Job),
      j ∈ jobs →
      (assocFind (runJobs cfg net cache jobs) j.id).isSome = true) := by
  constructor
  · intro cfg net job h
    simp only [knownJobTypes, List.mem_cons, List.not_mem_nil, or_false,
      not_or] at h
    obtain ⟨h1, h2, h3, h4⟩ := h
    unfold processJob dispatchJob
    rw [if_neg h1, if_neg h2, if_neg h3, if_neg h4]
  · intro cfg net cache jobs
    induction jobs generalizing cache with
    | nil => intro j h; simp at h
    | cons j0 rest ih =>
      intro j h
      rcases List.mem_cons.mp h with h1 | h2
      · subst h1
        exact runJobs_preserves cfg net rest _ j.id
          (by rw [assocFind_setAssoc_self]; rfl)
      · exact ih _ j h2

theorem unknown_job_type_handling_witness :
    processJob {} (fun _ _ _ => .error "no network") ⟨1, "bogus", []⟩ =
      .done (.errorPayload ("Unknown job type: " ++ "bogus")) ∧
    (assocFind (runJobs {} (fun _ _ _ => .error "no network") []
      [⟨1, "bogus", []⟩,
       ⟨2, "data_analysis", [("data_points", .list [.num 1])]⟩]) 1).isSome
        = true ∧
    (assocFind (runJobs {} (fun _ _ _ => .error "no network") []
      [⟨1, "bogus", []⟩,
       ⟨2, "data_analysis", [("data_points", .list [.num 1])]⟩]) 2).isSome
        = true :=
  ⟨unknown_job_type_handling.1 {} (fun _ _ _ => .error "no network")
      ⟨1, "bogus", []⟩ (by decide),
    unknown_job_type_handling.2 {} (fun _ _ _ => .error "no network") []
      [⟨1, "bogus", []⟩,
       ⟨2, "data_analysis", [("data_points", .list [.num 1])]⟩]
      ⟨1, "bogus", []⟩ (List.mem_cons_self _ _),
    unknown_job_type_handling.2 {} (fun _ _ _ => .error "no network") []
      [⟨1, "bogus", []⟩,
       ⟨2, "data_analysis", [("data_points", .list [.num 1])]⟩]
      ⟨2, "data_analysis", [("data_points", .list [.num 1])]⟩
      (by simp)⟩

/-! ## The ml_prediction handler versus the Model Registry -/

theorem pySum_map_num : ∀ qs : List ℚ, pySum (qs.map PyVal.num) = .ok qs.sum := by
  intro qs
  induction qs with
  | nil => rfl
  | cons q rest ih =>
    simp only [List.map_cons, pySum, ih]
    rfl

/-- The delegation property asserted by the claim, written from the
spec's words (refinement claim, to be compared with
`makeMlPrediction`): processing an `ml_prediction` job delegates to
the Model Registry's predict path using a model selected by
`model_type` — so whenever that path fails for the selected model in
every registry state and input (as it does for the empty registry,
where every lookup fails), the handler cannot report a successful
prediction. -/
def mlPredictionDelegates : Prop :=
  ∃ select : String → String,
    ∀ (pexp : ℚ → ℚ) (models : List (String × RModel)) (mt : String)
      (fs : List PyVal) (rows : List (List ℚ)) (res : HandlerResult),
      makeMlPrediction [("features", .list fs), ("model_type", .str mt)] =
        .ok res →
      (∀ msg, res ≠ .errorPayload msg) →
      ∃ pr, svcPredict pexp models (select mt) rows = .ok pr

/-- C8, claim as frozen, refuted: the `ml_prediction` handler does
not delegate to the Model Registry — on features `[1]` with
model_type `linear_regression` it returns a successful simulated
prediction (0.7·1 + 0.3 = 1, confidence 0.95) even though the
registry's predict path fails for every model name in the empty
registry. -/
theorem ml_prediction_no_delegation : ¬ mlPredictionDelegates := by
  rintro ⟨select, h⟩
  have h1 : makeMlPrediction
      [("features", .list [.num 1]), ("model_type", .str "linear_regression")] =
      .ok (.mlSim "linear_regression" (.num 1) (19 / 20) 1) := by
    have hs := pySum_map_num [1]
    simp only [List.map_cons, List.map_nil] at hs
    have hd1 : dictGet
        [("features", PyVal.list [.num 1]),
          ("model_type", PyVal.str "linear_regression")] "features"
        (.list []) = .list [.num 1] := rfl
    have hd2 : dictGet
        [("features", PyVal.list [.num 1]),
          ("model_type", PyVal.str "linear_regression")] "model_type"
        (.str "linear_regression") = .str "linear_regression" := rfl
    simp only [makeMlPrediction, hd1, hd2, pyIter, hs, Bind.bind, Except.bind]
    rw [if_true, if_pos (by norm_num)]
    norm_num [clamp6095, pure, Except.pure]
  have h2 := h (fun q => q) [] "linear_regression" [.num 1] [[1]]
    (.mlSim "linear_regression" (.num 1) (19 / 20) 1) h1
    (fun msg hmsg => by simp at hmsg)
  obtain ⟨pr, hpr⟩ := h2
  have h3 : svcPredict (fun q => q) [] (select "linear_regression") [[1]] =
      .error ("Model " ++ select "linear_regression" ++ " not found") := rfl
  rw [h3] at hpr
  exact Except.noConfusion hpr

/-- C8 (amended): the `ml_prediction` handler computes a simulated
prediction locally, without consulting the Model Registry: for
`linear_regression` on non-empty numeric features the prediction is
`0.7·sum + 0.3` with the clamped confidence; for `classification` it
is the sign of the feature sum; any other model_type yields the
error payload `'Unknown model type: X'`.  (The fixed `time.sleep`
delay has no observable effect on the result.) -/
theorem ml_prediction_local :
    (∀ (inp : List (String × PyVal)) (fs : List PyVal) (mt : String),
      dictGet inp "features" (.list []) = .list fs →
      dictGet inp "model_type" (.str "linear_regression") = .str mt →
      mt ≠ "linear_regression" → mt ≠ "classification" →
      makeMlPrediction inp =
        .ok (.errorPayload ("Unknown model type: " ++ mt))) ∧
    (∀ qs : List ℚ, qs ≠ [] →
      makeMlPrediction [("features", .list (qs.map PyVal.num)),
          ("model_type", .str "linear_regression")] =
        .ok (.mlSim "linear_regression" (.num (qs.sum * (7 / 10) + 3 / 10))
          (clamp6095 (1 - |qs.sum * (7 / 10) + 3 / 10 - qs.sum| / 10))
          qs.length)) ∧
    (∀ qs : List ℚ, qs ≠ [] →
      makeMlPrediction [("features", .list (qs.map PyVal.num)),
          ("model_type", .str "classification")] =
        .ok (.mlSim "classification"
          (if qs.sum > 0 then .str "positive" else .str "negative")
          (clamp6095 (|qs.sum| / 10)) qs.length)) := by
  refine ⟨?_, ?_, ?_⟩
  · intro inp fs mt hf hm hlin hcl
    simp only [makeMlPrediction, hf, hm, pyIter, Bind.bind, Except.bind]
    rw [if_neg (by simp [hlin]), if_neg (by simp [hcl])]
    rfl
  · intro qs hq
    have hs := pySum_map_num qs
    have hlen : (qs.map PyVal.num).length > 0 := by
      rw [List.length_map]
      exact List.length_pos.mpr hq
    have hd1 : dictGet [("features", PyVal.list (qs.map PyVal.num)),
        ("model_type", PyVal.str "linear_regression")] "features"
        (.list []) = .list (qs.map PyVal.num) := rfl
    have hd2 : dictGet [("features", PyVal.list (qs.map PyVal.num)),
        ("model_type", PyVal.str "linear_regression")] "model_type"
        (.str "linear_regression") = .str "linear_regression" := rfl
    simp only [makeMlPrediction, hd1, hd2, pyIter, hs, Bind.bind, Except.bind]
    rw [if_true, if_pos hlen]
    simp only [hs, Except.bind, List.length_map, pure, Except.pure]
  · intro qs hq
    have hs := pySum_map_num qs
    have htr : truthy (.list (qs.map PyVal.num)) = true := by
      simp only [truthy, Bool.not_eq_true]
      simp [List.isEmpty_iff, hq]
    have hd1 : dictGet [("features", PyVal.list (qs.map PyVal.num)),
        ("model_type", PyVal.str "classification")] "features"
        (.list []) = .list (qs.map PyVal.num) := rfl
    have hd2 : dictGet [("features", PyVal.list (qs.map PyVal.num)),
        ("model_type", PyVal.str "classification")] "model_type"
        (.str "linear_regression") = .str "classification" := rfl
    simp only [makeMlPrediction, hd1, hd2, pyIter, Bind.bind, Except.bind]
    rw [if_neg (by simp), if_true, if_pos htr]
    simp only [hs, Except.bind, List.length_map, pure, Except.pure]

theorem ml_prediction_local_witness :
    makeMlPrediction [("features", .list ([(2 : ℚ)].map PyVal.num)),
        ("model_type", .str "linear_regression")] =
      .ok (.mlSim "linear_regression"
        (.num ([(2 : ℚ)].sum * (7 / 10) + 3 / 10))
        (clamp6095 (1 - |[(2 : ℚ)].sum * (7 / 10) + 3 / 10 - [(2 : ℚ)].sum| / 10))
        [(2 : ℚ)].length) :=
  ml_prediction_local.2.1 [2] (by decide)

/-! ## Model persistence -/

/-- C9, claim as frozen, refuted: `load` restores name, kind,
version, parameters, trained flag and accuracy, but not the creation
time — after a save/load round-trip through a fresh file store, the
in-memory `created_at` (2) survives instead of the saved value (1). -/
theorem model_load_counterexample :
    (modelLoad (modelSave (fun _ => none) "models/m.pkl"
        ⟨"a", "linear_regression", "1.0", .empty, false, none, 1⟩).1
      "models/m.pkl"
      ⟨"b", "binary_classification", "2.0", .empty, true, some 1, 2⟩).1.created_at
      = 2 ∧
    (saveBlob
      ⟨"a", "linear_regression", "1.0", .empty, false, none, 1⟩).created_at = 1 ∧
    (2 : ℕ) ≠ 1 := by
  refine ⟨?_, rfl, by decide⟩
  show (modelLoad (fun p => if p = "models/m.pkl"
      then some (saveBlob ⟨"a", "linear_regression", "1.0", .empty, false, none, 1⟩)
      else none) "models/m.pkl"
    ⟨"b", "binary_classification", "2.0", .empty, true, some 1, 2⟩).1.created_at = 2
  rfl

/-- C9 (amended): a save followed by a load from the same path
succeeds and restores name, kind, version, parameters, trained flag
and accuracy from the saved blob, while the creation time keeps its
in-memory value (the source never assigns `self.created_at` in
`load`). -/
theorem model_save_load_roundtrip (fs : FileStore) (path : String)
    (m m' : MLModelState) :
    (modelLoad (modelSave fs path m).1 path m').2 = true ∧
    (modelLoad (modelSave fs path m).1 path m').1.name = m.name ∧
    (modelLoad (modelSave fs path m).1 path m').1.model_type = m.model_type ∧
    (modelLoad (modelSave fs path m).1 path m').1.version = m.version ∧
    (modelLoad (modelSave fs path m).1 path m').1.parameters = m.parameters ∧
    (modelLoad (modelSave fs path m).1 path m').1.is_trained = m.is_trained ∧
    (modelLoad (modelSave fs path m).1 path m').1.accuracy = m.accuracy ∧
    (modelLoad (modelSave fs path m).1 path m').1.created_at = m'.created_at := by
  have hfs : (modelSave fs path m).1 path = some (saveBlob m) := by
    simp [modelSave]
  refine ⟨?_, ?_, ?_, ?_, ?_, ?_, ?_, ?_⟩ <;>
    · unfold modelLoad
      rw [hfs]
      try rfl

end Poly
